import Mathlib

/-!
Shallow embedding of the template-execution core of the landscapercli
repository: the `Templater` dispatch engine with its three render
pipelines (sub-installations, deploy items, exports), and the execution
`Operation` (status update and export-reference publication).

Go maps from string keys are embedded as association lists with a
first-match lookup; Go's `error` results become a structured `LsError`
sum carried in `Except`. External collaborators that are vendored outside
the source tree (serialization, condition merge, data-object building,
object storage) are modelled from the spec, each marked in its doc
comment.
-/

namespace Landscaper

/-- A generic JSON-like value (Go `interface\x7b\x7d` after JSON decoding). -/
inductive GVal where
  | null : GVal
  | boolean : Bool → GVal
  | num : Int → GVal
  | str : String → GVal
  | arr : List GVal → GVal
  | obj : List (String × GVal) → GVal
deriving Repr

/-- Structured rendering of the Go `error` values produced by the core. -/
inductive LsError where
  | unknownTemplateType (ty : String) : LsError
  | serialization (msg : String) : LsError
  | backend (msg : String) : LsError
  | validation (violations : List String) : LsError
deriving Repr, DecidableEq

/-- First-match lookup in an association list (a Go string-keyed map entry read). -/
def lookupMap (m : List (String × GVal)) (k : String) : Option GVal :=
  match m with
  | [] => none
  | (k', v) :: rest => if k' = k then some v else lookupMap rest k

/-- An export map: Go `map[string]interface\x7b\x7d`. -/
def ExportMap : Type := List (String × GVal)

/-- Modelled from the spec: `utils.MergeMaps` (vendored outside the source
tree) merges two export maps with right-biased key overwrite — a key present
in `b` takes `b`'s value, all other keys of `a` are kept. -/
def MergeMaps (a b : List (String × GVal)) : List (String × GVal) :=
  a.filter (fun p => (lookupMap b p.1).isNone) ++ b

/-- Go type `lsv1alpha1.TemplateExecutor`: one declared unit of rendering work. -/
structure TemplateExecutor where
  name : String
  type : String
  file : String
deriving Repr, DecidableEq

/-- The blueprint data read by the pipelines (`blueprints.Blueprint.Info`):
the three ordered executor lists. -/
structure BlueprintInfo where
  subinstallationExecutions : List TemplateExecutor
  deployExecutions : List TemplateExecutor
  exportExecutions : List TemplateExecutor
deriving Repr, DecidableEq

/-- Go type `blueprints.Blueprint`: wraps the blueprint information. -/
structure Blueprint where
  info : BlueprintInfo
deriving Repr, DecidableEq

/-- The slice of `lsv1alpha1.Installation.Spec` the pipelines read:
a blueprint definition and an optional component-descriptor definition,
both opaque structured data here. -/
structure InstallationSpec where
  blueprint : GVal
  componentDescriptor : Option GVal
deriving Repr

/-- Go type `lsv1alpha1.Installation` (the fields the pipelines read). -/
structure Installation where
  spec : InstallationSpec
deriving Repr

/-- The rendered description of a nested installation
(`lsv1alpha1.InstallationTemplate`), opaque to the pipeline. -/
structure InstallationTemplate where
  name : String
  payload : GVal
deriving Repr

/-- Go type `lsv1alpha1.DeployItemTemplate`: the fields the validator inspects. -/
structure DeployItemTemplate where
  name : String
  type : String
  target : Option String
deriving Repr, DecidableEq

/-- Go type `SubinstallationExecutorOutput`: the Go slice is nil-able, so the list
is optional (`none` embeds a nil slice). -/
structure SubinstallationExecutorOutput where
  subinstallations : Option (List InstallationTemplate)
deriving Repr

/-- Go type `DeployExecutorOutput`: the Go slice is nil-able. -/
structure DeployExecutorOutput where
  deployItems : Option (List DeployItemTemplate)
deriving Repr, DecidableEq

/-- Go type `ExportExecutorOutput`: the exported key-value map (nil and empty maps
are both embedded as `[]`). -/
structure ExportExecutorOutput where
  exports : List (String × GVal)
deriving Repr

/-- The renderer-backend contract `ExecutionTemplater`: one type-tag and the
three typed render operations. The export operation takes only the executor,
the blueprint and the exports value, mirroring the interface declaration. -/
structure ExecutionTemplater where
  type : String
  templateSubinstallationExecutions :
    TemplateExecutor → Blueprint → Option GVal → Option GVal →
    List (String × GVal) → Except LsError SubinstallationExecutorOutput
  templateDeployExecutions :
    TemplateExecutor → Blueprint → Option GVal → Option GVal →
    List (String × GVal) → Except LsError DeployExecutorOutput
  templateExportExecutions :
    TemplateExecutor → Blueprint → GVal → Except LsError ExportExecutorOutput

/-- Go type `Templater`: holds the registered backends. The Go field is a map built
by inserting each backend under its type-tag in registration order. -/
structure Templater where
  templaters : List ExecutionTemplater

/-- Constructor `New`: constructs a templater from backends. -/
def New (templaters : List ExecutionTemplater) : Templater :=
  ⟨templaters⟩

/-- The lookup `o.impl[ty]` of the backend map built by `New`: map insertion
in registration order means the last backend registered for a tag wins. -/
def Templater.impl (o : Templater) (ty : String) : Option ExecutionTemplater :=
  o.templaters.foldl (fun acc t => if t.type = ty then some t else acc) none

/-- Modelled from the spec: the serialization collaborator
`encodeToGenericTree` (§6), standing in for the vendored
`codec.Encode`+`json.Unmarshal` round trip and
`utils.JSONSerializeToGenericObject`, both outside the source tree.
It may fail, and is otherwise opaque to the core. -/
structure Serializer where
  encodeToGenericTree : GVal → Except LsError GVal

/-- Function `serializeComponentDescriptor`: a nil descriptor yields a nil value with
no error; otherwise the descriptor is encoded to a generic tree. -/
def serializeComponentDescriptor (sc : Serializer) (cd : Option GVal) :
    Except LsError GVal :=
  match cd with
  | none => .ok .null
  | some c => sc.encodeToGenericTree c

/-- Function `serializeComponentDescriptorList`: same shape for the descriptor list. -/
def serializeComponentDescriptorList (sc : Serializer) (cdl : Option GVal) :
    Except LsError GVal :=
  match cdl with
  | none => .ok .null
  | some c => sc.encodeToGenericTree c

/-- Go type `DeployExecutionOptions`: the options record for the sub-installation and
deploy-item pipelines. -/
structure DeployExecutionOptions where
  imports : GVal
  installation : Option Installation
  blueprint : Blueprint
  componentDescriptor : Option GVal
  componentDescriptors : Option GVal

/-- The value-context construction shared verbatim by the sub-installation
and deploy-item pipelines in the source: serialize the descriptor and the
descriptor list, bind `imports`, `cd`, `components`, and when an owning
installation is supplied additionally `blueprint` and (when a
component-descriptor reference is present) `componentDescriptorDef`. -/
def buildValues (sc : Serializer) (opts : DeployExecutionOptions) :
    Except LsError (List (String × GVal)) :=
  match serializeComponentDescriptor sc opts.componentDescriptor with
  | .error _ =>
      .error (.serialization "error during serializing of the resolved components")
  | .ok component =>
    match serializeComponentDescriptorList sc opts.componentDescriptors with
    | .error _ =>
        .error (.serialization "error during serializing of the component descriptor")
    | .ok components =>
      let values := [("imports", opts.imports), ("cd", component),
        ("components", components)]
      match opts.installation with
      | none => .ok values
      | some inst =>
        match sc.encodeToGenericTree inst.spec.blueprint with
        | .error _ =>
            .error (.serialization "unable to serialize the blueprint definition")
        | .ok blueprintDef =>
          let values := values ++ [("blueprint", blueprintDef)]
          match inst.spec.componentDescriptor with
          | none => .ok values
          | some cdRef =>
            match sc.encodeToGenericTree cdRef with
            | .error _ =>
                .error (.serialization "unable to serialize the component descriptor definition")
            | .ok cdDef => .ok (values ++ [("componentDescriptorDef", cdDef)])

/-- The executor loop of `Templater.TemplateSubinstallationExecutions`:
look up each executor's backend (unknown tag aborts), dispatch, skip a nil
output, and append a non-nil output list to the accumulator. -/
def subinstallationLoop (o : Templater) (bp : Blueprint) (cd cdl : Option GVal)
    (values : List (String × GVal)) :
    List TemplateExecutor → List InstallationTemplate →
    Except LsError (List InstallationTemplate)
  | [], acc => .ok acc
  | tmplExec :: rest, acc =>
    match o.impl tmplExec.type with
    | none => .error (.unknownTemplateType tmplExec.type)
    | some impl =>
      match impl.templateSubinstallationExecutions tmplExec bp cd cdl values with
      | .error e => .error e
      | .ok output =>
        match output.subinstallations with
        | none => subinstallationLoop o bp cd cdl values rest acc
        | some subs => subinstallationLoop o bp cd cdl values rest (acc ++ subs)

/-- Pipeline `Templater.TemplateSubinstallationExecutions`: build the value context,
then aggregate every executor's output in declaration order. -/
def Templater.TemplateSubinstallationExecutions (o : Templater)
    (sc : Serializer) (opts : DeployExecutionOptions) :
    Except LsError (List InstallationTemplate) :=
  match buildValues sc opts with
  | .error e => .error e
  | .ok values =>
    subinstallationLoop o opts.blueprint opts.componentDescriptor
      opts.componentDescriptors values
      opts.blueprint.info.subinstallationExecutions []

/-- The executor loop of `Templater.TemplateDeployExecutions`: same shape as
the sub-installation loop, collecting deploy-item templates. -/
def deployLoop (o : Templater) (bp : Blueprint) (cd cdl : Option GVal)
    (values : List (String × GVal)) :
    List TemplateExecutor → List DeployItemTemplate →
    Except LsError (List DeployItemTemplate)
  | [], acc => .ok acc
  | tmplExec :: rest, acc =>
    match o.impl tmplExec.type with
    | none => .error (.unknownTemplateType tmplExec.type)
    | some impl =>
      match impl.templateDeployExecutions tmplExec bp cd cdl values with
      | .error e => .error e
      | .ok output =>
        match output.deployItems with
        | none => deployLoop o bp cd cdl values rest acc
        | some items => deployLoop o bp cd cdl values rest (acc ++ items)

/-- Modelled from the spec: `validation.ValidateDeployItemTemplateList`
(vendored outside the source tree) applies the structural rules — required
name, required type, name uniqueness — under the given field path and
returns every violation found across the list, not only the first. -/
def ValidateDeployItemTemplateList (fldPath : String)
    (list : List DeployItemTemplate) : List String :=
  (list.enum.map (fun p =>
    (if p.2.name == "" then
      [fldPath ++ "[" ++ toString p.1 ++ "].name: Required value"] else []) ++
    (if p.2.type == "" then
      [fldPath ++ "[" ++ toString p.1 ++ "].type: Required value"] else []) ++
    (if p.2.name != "" && (list.take p.1).any (fun q => q.name == p.2.name) then
      [fldPath ++ "[" ++ toString p.1 ++ "].name: Duplicate value " ++ p.2.name]
     else []))).flatten

/-- Function `validateDeployItemList`: converts and validates the aggregated list;
`ToAggregate` yields no error exactly when no violation was found, and
otherwise one error carrying all violations. -/
def validateDeployItemList (fldPath : String) (list : List DeployItemTemplate) :
    Option LsError :=
  match ValidateDeployItemTemplateList fldPath list with
  | [] => none
  | violations => some (.validation violations)

/-- Pipeline `Templater.TemplateDeployExecutions`: build the value context, aggregate
every executor's output in declaration order, then validate the full list. -/
def Templater.TemplateDeployExecutions (o : Templater) (sc : Serializer)
    (opts : DeployExecutionOptions) : Except LsError (List DeployItemTemplate) :=
  match buildValues sc opts with
  | .error e => .error e
  | .ok values =>
    match deployLoop o opts.blueprint opts.componentDescriptor
      opts.componentDescriptors values opts.blueprint.info.deployExecutions [] with
    | .error e => .error e
    | .ok deployItemTemplateList =>
      match validateDeployItemList "deployExecutions" deployItemTemplateList with
      | some e => .error e
      | none => .ok deployItemTemplateList

/-- The executor loop of `Templater.TemplateExportExecutions`: look up each
executor's backend (unknown tag aborts), dispatch with only the executor, the
blueprint and the exports value, and merge the returned export map into the
accumulator. -/
def exportLoop (o : Templater) (bp : Blueprint) (exports : GVal) :
    List TemplateExecutor → List (String × GVal) →
    Except LsError (List (String × GVal))
  | [], acc => .ok acc
  | tmplExec :: rest, acc =>
    match o.impl tmplExec.type with
    | none => .error (.unknownTemplateType tmplExec.type)
    | some impl =>
      match impl.templateExportExecutions tmplExec bp exports with
      | .error e => .error e
      | .ok output => exportLoop o bp exports rest (MergeMaps acc output.exports)

/-- Pipeline `Templater.TemplateExportExecutions`: aggregates all export executors'
maps by right-biased merge. It takes only the blueprint and the exports
value — no options record, descriptor or value context. -/
def Templater.TemplateExportExecutions (o : Templater) (blueprint : Blueprint)
    (exports : GVal) : Except LsError (List (String × GVal)) :=
  exportLoop o blueprint exports blueprint.info.exportExecutions []

/-! ### Dispatch argument shapes

The kinds of argument each dispatch operation hands to its backend, read off
the `ExecutionTemplater` interface declaration and the three call sites. -/

/-- An argument kind of a backend dispatch call. -/
inductive DispatchArg where
  | executor : DispatchArg
  | blueprint : DispatchArg
  | componentDescriptor : DispatchArg
  | componentDescriptorList : DispatchArg
  | valueContext : DispatchArg
  | exports : DispatchArg
deriving Repr, DecidableEq

/-- Arguments of the sub-installation dispatch
`impl.TemplateSubinstallationExecutions(tmplExec, blueprint, cd, cdList, values)`. -/
def subinstallationDispatchArgs : List DispatchArg :=
  [.executor, .blueprint, .componentDescriptor, .componentDescriptorList,
   .valueContext]

/-- Arguments of the deploy-item dispatch
`impl.TemplateDeployExecutions(tmplExec, blueprint, cd, cdList, values)`. -/
def deployDispatchArgs : List DispatchArg :=
  [.executor, .blueprint, .componentDescriptor, .componentDescriptorList,
   .valueContext]

/-- Arguments of the export dispatch
`impl.TemplateExportExecutions(tmplExec, blueprint, exports)`. -/
def exportDispatchArgs : List DispatchArg :=
  [.executor, .blueprint, .exports]

/-! ### Execution state controller -/

/-- Go type `lsv1alpha1.Condition` (the fields the merge claim concerns). -/
structure Condition where
  type : String
  status : String
  reason : String
  message : String
deriving Repr, DecidableEq

/-- Go type `lsv1alpha1.ObjectReference`: name plus namespace. -/
structure ObjectReference where
  name : String
  nspace : String
deriving Repr, DecidableEq

/-- Go type `lsv1alpha1.ExecutionStatus` (the fields this core mutates). -/
structure ExecutionStatus where
  phase : String
  conditions : List Condition
  exportReference : Option ObjectReference
deriving Repr, DecidableEq

/-- Go type `lsv1alpha1.Execution`: identity plus status. -/
structure Execution where
  name : String
  nspace : String
  status : ExecutionStatus
deriving Repr, DecidableEq

/-- Go type `execution.Operation`: the operation state around one execution. -/
structure Operation where
  exec : Execution
  forceReconcile : Bool
deriving Repr, DecidableEq

/-- Modelled from the spec: `lsv1alpha1helper.MergeConditions` (vendored
outside the source tree) merges updated conditions into an existing set by
condition-type key: a condition whose type already exists replaces the
existing one in place, a condition with a new type is appended, untouched
conditions keep their relative order; updates are applied left to right. -/
def MergeConditions (conditions : List Condition)
    (updatedConditions : List Condition) : List Condition :=
  updatedConditions.foldl
    (fun acc c =>
      if acc.any (fun e => e.type = c.type) then
        acc.map (fun e => if e.type = c.type then c else e)
      else acc ++ [c])
    conditions

/-- The data-object record published for an execution's exports. -/
structure DataObject where
  name : String
  nspace : String
  source : String
  ctx : String
  data : GVal
  owner : Option String
deriving Repr

/-- The store of persisted data objects, keyed by namespace and name. -/
structure Store where
  objects : List DataObject
deriving Repr

/-- The external collaborators of the execution operation; each field is
modelled from the spec. `build` stands for `dataobjects.New()...Build()`
(derives the object's name deterministically from its namespace, source and
context identity, may fail on serialization); `applyMutate` stands for the
mutate closure `SetOwnerReference` + `do.Apply` (may fail);
`persistStatus` stands for `Writer().UpdateExecutionStatus` (may fail). -/
structure ExecCollaborators where
  build : String → String → String → GVal → Except LsError DataObject
  applyMutate : Execution → DataObject → Except LsError DataObject
  persistStatus : Execution → Except LsError Unit

/-- Modelled from the spec: `DataObjectSourceFromExecution` derives the
source/context identifier from the execution's identity. -/
def DataObjectSourceFromExecution (exec : Execution) : String :=
  "Execution." ++ exec.nspace ++ "/" ++ exec.name

/-- Modelled from the spec: `Writer().CreateOrUpdateDataObject` performs an
idempotent upsert keyed by namespace and name after running the mutate
closure: an object with the same derived key is overwritten in place,
otherwise the object is appended. -/
def createOrUpdateDataObject (store : Store) (raw : DataObject)
    (mutate : DataObject → Except LsError DataObject) :
    Except LsError (Store × DataObject) :=
  match mutate raw with
  | .error e => .error e
  | .ok obj =>
    if store.objects.any (fun d => d.nspace == obj.nspace && d.name == obj.name) then
      .ok (⟨store.objects.map
        (fun d => if d.nspace == obj.nspace && d.name == obj.name then obj else d)⟩,
        obj)
    else
      .ok (⟨store.objects ++ [obj]⟩, obj)

/-- Method `Operation.UpdateStatus`: sets the phase, merges the supplied conditions
into the condition set, then persists the status; the in-memory mutation
happens before persistence and is not rolled back on a persistence error.
Returns the mutated operation together with the persistence outcome. -/
def Operation.UpdateStatus (persist : Execution → Except LsError Unit)
    (o : Operation) (phase : String) (updatedConditions : List Condition) :
    Operation × Except LsError Unit :=
  let exec := { o.exec with status :=
    { o.exec.status with
      phase := phase
      conditions := MergeConditions o.exec.status.conditions updatedConditions } }
  (⟨exec, o.forceReconcile⟩, persist exec)

/-- Method `Operation.CreateOrUpdateExportReference`: builds the export data object
in the execution's namespace with source and context derived from the
execution, upserts it with the owner-reference mutate closure, then records
the upserted object's name and namespace as the execution's export reference
and persists a status update with the phase unchanged and no conditions.
Returns the operation, the store and the outcome. -/
def Operation.CreateOrUpdateExportReference (c : ExecCollaborators)
    (o : Operation) (store : Store) (values : GVal) :
    Operation × Store × Except LsError Unit :=
  match c.build o.exec.nspace (DataObjectSourceFromExecution o.exec)
      (DataObjectSourceFromExecution o.exec) values with
  | .error e => (o, store, .error e)
  | .ok raw =>
    match createOrUpdateDataObject store raw (c.applyMutate o.exec) with
    | .error e => (o, store, .error e)
    | .ok (store', raw') =>
      let ref : ObjectReference := ⟨raw'.name, raw'.nspace⟩
      let o' : Operation := { o with exec := { o.exec with status :=
        { o.exec.status with exportReference := some ref } } }
      let r := Operation.UpdateStatus c.persistStatus o' o'.exec.status.phase []
      (r.1, store', r.2)

/-! ### Concrete fixtures

Closed sample inputs used to evaluate the development on concrete data. -/

/-- A serializer whose encoding is the identity (always succeeds). -/
def idSerializer : Serializer := ⟨fun v => .ok v⟩

/-- A sample executor of the unregistered type-tag `GoTemplate`. -/
def execGo : TemplateExecutor := ⟨"e1", "GoTemplate", "/e1"⟩

/-- A sample executor of type `Spiff`. -/
def execSpiff : TemplateExecutor := ⟨"e2", "Spiff", "/e2"⟩

/-- A blueprint declaring `execGo` in all three executor lists. -/
def bpGoOnly : Blueprint := ⟨⟨[execGo], [execGo], [execGo]⟩⟩

/-- Options over `bpGoOnly` with no installation and nil descriptors. -/
def optsGoOnly : DeployExecutionOptions := ⟨.null, none, bpGoOnly, none, none⟩

/-- A backend that ignores its inputs and returns fixed outputs. -/
def constBackend (ty : String) (subs : Option (List InstallationTemplate))
    (items : Option (List DeployItemTemplate)) (exps : List (String × GVal)) :
    ExecutionTemplater :=
  ⟨ty, fun _ _ _ _ _ => .ok ⟨subs⟩, fun _ _ _ _ _ => .ok ⟨items⟩,
   fun _ _ _ => .ok ⟨exps⟩⟩

/-- A blueprint whose export pipeline runs `execGo` then `execSpiff`. -/
def bpExportPair : Blueprint := ⟨⟨[], [], [execGo, execSpiff]⟩⟩

/-- A templater registering a `GoTemplate` backend exporting `replicas=3` and
a `Spiff` backend exporting `replicas=5, name="x"`. -/
def templaterExportPair : Templater :=
  New [constBackend "GoTemplate" none none [("replicas", .num 3)],
       constBackend "Spiff" none none [("replicas", .num 5), ("name", .str "x")]]

/-- Sample sub-installation template. -/
def instTmplA : InstallationTemplate := ⟨"sub-a", .null⟩

/-- Sample deploy items with distinct names and non-empty types. -/
def itemA : DeployItemTemplate := ⟨"di-a", "landscaper.gardener.cloud/helm", none⟩

/-- A second sample deploy item. -/
def itemB : DeployItemTemplate := ⟨"di-b", "landscaper.gardener.cloud/helm", none⟩

/-- A third sample deploy item. -/
def itemC : DeployItemTemplate := ⟨"di-c", "landscaper.gardener.cloud/helm", none⟩

/-- A blueprint running `execGo` then `execSpiff` in the sub-installation and
deploy-item pipelines. -/
def bpAggPair : Blueprint := ⟨⟨[execGo, execSpiff], [execGo, execSpiff], []⟩⟩

/-- A templater whose `GoTemplate` backend returns a nil sub-installation
list and one deploy item, and whose `Spiff` backend returns one
sub-installation template and two deploy items. -/
def templaterAggPair : Templater :=
  New [constBackend "GoTemplate" none (some [itemA]) [],
       constBackend "Spiff" (some [instTmplA]) (some [itemB, itemC]) []]

/-- Options over `bpAggPair` with no installation and nil descriptors. -/
def optsAggPair : DeployExecutionOptions := ⟨.null, none, bpAggPair, none, none⟩

/-- A templater whose backends return invalid deploy items: the `GoTemplate`
backend returns an unnamed item, the `Spiff` backend an untyped one. -/
def templaterInvalidItems : Templater :=
  New [constBackend "GoTemplate" none (some [⟨"", "helm", none⟩]) [],
       constBackend "Spiff" none (some [⟨"di-b", "", none⟩]) []]

/-- Options with an installation carrying a component-descriptor reference
and a present component descriptor, over `bpAggPair`. -/
def optsWithInstallation : DeployExecutionOptions :=
  ⟨.obj [("k", .num 1)], some ⟨⟨.str "bp-ref", some (.str "cd-ref")⟩⟩,
   bpAggPair, some (.obj [("component", .str "c")]), none⟩

/-- A sample execution in phase `Init` with no conditions. -/
def execSample : Execution := ⟨"exec-a", "ns-1", ⟨"Init", [], none⟩⟩

/-- An operation over `execSample`. -/
def opSample : Operation := ⟨execSample, false⟩

/-- The empty store. -/
def emptyStore : Store := ⟨[]⟩

/-- Collaborators whose build derives the object name from the source
identifier, whose mutate records the owning execution, and whose status
persistence always succeeds. -/
def collabOk : ExecCollaborators :=
  ⟨fun ns src ctx data => .ok ⟨src ++ "-do", ns, src, ctx, data, none⟩,
   fun ex d => .ok { d with owner := some (ex.nspace ++ "/" ++ ex.name) },
   fun _ => .ok ()⟩

/-- Collaborators whose build always fails. -/
def collabBuildFail : ExecCollaborators :=
  ⟨fun _ _ _ _ => .error (.serialization "marshal failed"),
   fun _ d => .ok d, fun _ => .ok ()⟩

/-- Collaborators whose build succeeds but whose mutate closure fails. -/
def collabMutateFail : ExecCollaborators :=
  ⟨fun ns src ctx data => .ok ⟨src ++ "-do", ns, src, ctx, data, none⟩,
   fun _ _ => .error (.backend "owner reference failed"), fun _ => .ok ()⟩

/-- A status persistence function that always fails. -/
def persistFail : Execution → Except LsError Unit :=
  fun _ => .error (.backend "status write failed")

/-- Sample conditions of distinct types. -/
def condA : Condition := ⟨"Reconcile", "True", "r1", "m1"⟩

/-- A second sample condition. -/
def condB : Condition := ⟨"Validate", "False", "r2", "m2"⟩

/-- A replacement for `condA`'s type with different content. -/
def condA' : Condition := ⟨"Reconcile", "False", "r3", "m3"⟩

/-! ## Theorems -/

/-- Lookup distributes over list append, preferring the left list. -/
theorem lookupMap_append (a b : List (String × GVal)) (k : String) :
    lookupMap (a ++ b) k = ((lookupMap a k).or (lookupMap b k)) := by
  induction a with
  | nil => simp [lookupMap]
  | cons hd tl ih =>
    obtain ⟨k', v⟩ := hd
    by_cases h : k' = k
    · simp [lookupMap, h]
    · simp [lookupMap, h, ih]

/-- Filtering with a predicate that keeps every entry of key `k` preserves
the lookup of `k`. -/
theorem lookupMap_filter_of_keep (a : List (String × GVal)) (k : String)
    (pred : String × GVal → Bool)
    (h : ∀ p ∈ a, p.1 = k → pred p = true) :
    lookupMap (a.filter pred) k = lookupMap a k := by
  induction a with
  | nil => simp
  | cons hd tl ih =>
    obtain ⟨k', v⟩ := hd
    by_cases hk : k' = k
    · subst hk
      have : pred (k', v) = true :=
        h (k', v) (List.mem_cons_self _ _) rfl
      simp [List.filter_cons, this, lookupMap]
    · have ih' := ih (fun p hp hpk => h p (List.mem_cons_of_mem _ hp) hpk)
      by_cases hp : pred (k', v)
      · simp [List.filter_cons, hp, lookupMap, hk, ih']
      · simp [List.filter_cons, hp, lookupMap, hk, ih']

/-- Filtering away every entry whose key is present in `b` makes the lookup
of a `b`-key come out empty. -/
theorem lookupMap_filter_of_drop (a b : List (String × GVal)) (k : String)
    (h : (lookupMap b k).isSome) :
    lookupMap (a.filter (fun p => (lookupMap b p.1).isNone)) k = none := by
  induction a with
  | nil => simp [lookupMap]
  | cons hd tl ih =>
    obtain ⟨k', v⟩ := hd
    by_cases hk : k' = k
    · subst hk
      have : ((lookupMap b k').isNone) = false := by
        cases hb : lookupMap b k' with
        | none => rw [hb] at h; simp at h
        | some w => simp
      simp [List.filter_cons, this, ih]
    · by_cases hp : (lookupMap b k').isNone
      · simp [List.filter_cons, hp, lookupMap, hk, ih]
      · simp [List.filter_cons, hp, ih]

/-- Lookup in a right-biased merge: the right map's binding wins, the left
map's binding is kept for keys the right map lacks. -/
theorem lookupMap_MergeMaps (a b : List (String × GVal)) (k : String) :
    lookupMap (MergeMaps a b) k = ((lookupMap b k).or (lookupMap a k)) := by
  unfold MergeMaps
  rw [lookupMap_append]
  cases hb : lookupMap b k with
  | some v =>
    rw [lookupMap_filter_of_drop a b k (by rw [hb]; simp)]
    simp
  | none =>
    rw [lookupMap_filter_of_keep a k _ (fun p _ hpk => by
      rw [hpk, hb]; simp)]
    cases lookupMap a k <;> simp

/-- An unknown type-tag in the executor list aborts the sub-installation
loop with an error regardless of the accumulator. -/
theorem subinstallationLoop_error_of_unknown (o : Templater) (bp : Blueprint)
    (cd cdl : Option GVal) (values : List (String × GVal)) :
    ∀ (l : List TemplateExecutor) (acc : List InstallationTemplate),
      (∃ t ∈ l, o.impl t.type = none) →
      ∃ e, subinstallationLoop o bp cd cdl values l acc = .error e := by
  intro l
  induction l with
  | nil =>
    intro acc h
    obtain ⟨t, ht, -⟩ := h
    exact absurd ht (List.not_mem_nil t)
  | cons hd tl ih =>
    intro acc h
    obtain ⟨t, ht, himpl⟩ := h
    by_cases hhd : o.impl hd.type = none
    · exact ⟨.unknownTemplateType hd.type, by simp [subinstallationLoop, hhd]⟩
    · obtain ⟨impl, himp⟩ := Option.ne_none_iff_exists'.mp hhd
      have htl : ∃ t ∈ tl, o.impl t.type = none := by
        rcases List.mem_cons.mp ht with rfl | h'
        · exact absurd himpl hhd
        · exact ⟨t, h', himpl⟩
      cases hout : impl.templateSubinstallationExecutions hd bp cd cdl values with
      | error e => exact ⟨e, by simp [subinstallationLoop, himp, hout]⟩
      | ok output =>
        cases hsubs : output.subinstallations with
        | none =>
          obtain ⟨e, he⟩ := ih acc htl
          exact ⟨e, by simp [subinstallationLoop, himp, hout, hsubs, he]⟩
        | some subs =>
          obtain ⟨e, he⟩ := ih (acc ++ subs) htl
          exact ⟨e, by simp [subinstallationLoop, himp, hout, hsubs, he]⟩

/-- An unknown type-tag in the executor list aborts the deploy-item loop
with an error regardless of the accumulator. -/
theorem deployLoop_error_of_unknown (o : Templater) (bp : Blueprint)
    (cd cdl : Option GVal) (values : List (String × GVal)) :
    ∀ (l : List TemplateExecutor) (acc : List DeployItemTemplate),
      (∃ t ∈ l, o.impl t.type = none) →
      ∃ e, deployLoop o bp cd cdl values l acc = .error e := by
  intro l
  induction l with
  | nil =>
    intro acc h
    obtain ⟨t, ht, -⟩ := h
    exact absurd ht (List.not_mem_nil t)
  | cons hd tl ih =>
    intro acc h
    obtain ⟨t, ht, himpl⟩ := h
    by_cases hhd : o.impl hd.type = none
    · exact ⟨.unknownTemplateType hd.type, by simp [deployLoop, hhd]⟩
    · obtain ⟨impl, himp⟩ := Option.ne_none_iff_exists'.mp hhd
      have htl : ∃ t ∈ tl, o.impl t.type = none := by
        rcases List.mem_cons.mp ht with rfl | h'
        · exact absurd himpl hhd
        · exact ⟨t, h', himpl⟩
      cases hout : impl.templateDeployExecutions hd bp cd cdl values with
      | error e => exact ⟨e, by simp [deployLoop, himp, hout]⟩
      | ok output =>
        cases hitems : output.deployItems with
        | none =>
          obtain ⟨e, he⟩ := ih acc htl
          exact ⟨e, by simp [deployLoop, himp, hout, hitems, he]⟩
        | some items =>
          obtain ⟨e, he⟩ := ih (acc ++ items) htl
          exact ⟨e, by simp [deployLoop, himp, hout, hitems, he]⟩

/-- An unknown type-tag in the executor list aborts the export loop with an
error regardless of the accumulator. -/
theorem exportLoop_error_of_unknown (o : Templater) (bp : Blueprint)
    (exports : GVal) :
    ∀ (l : List TemplateExecutor) (acc : List (String × GVal)),
      (∃ t ∈ l, o.impl t.type = none) →
      ∃ e, exportLoop o bp exports l acc = .error e := by
  intro l
  induction l with
  | nil =>
    intro acc h
    obtain ⟨t, ht, -⟩ := h
    exact absurd ht (List.not_mem_nil t)
  | cons hd tl ih =>
    intro acc h
    obtain ⟨t, ht, himpl⟩ := h
    by_cases hhd : o.impl hd.type = none
    · exact ⟨.unknownTemplateType hd.type, by simp [exportLoop, hhd]⟩
    · obtain ⟨impl, himp⟩ := Option.ne_none_iff_exists'.mp hhd
      have htl : ∃ t ∈ tl, o.impl t.type = none := by
        rcases List.mem_cons.mp ht with rfl | h'
        · exact absurd himpl hhd
        · exact ⟨t, h', himpl⟩
      cases hout : impl.templateExportExecutions hd bp exports with
      | error e => exact ⟨e, by simp [exportLoop, himp, hout]⟩
      | ok output =>
        obtain ⟨e, he⟩ := ih (MergeMaps acc output.exports) htl
        exact ⟨e, by simp [exportLoop, himp, hout, he]⟩

/-- C1: for every pipeline (sub-installation, deploy-item, export) and every
blueprint, if some executor in the pipeline's executor list has a type-tag
with no registered backend, the pipeline operation returns an error; the
result being the `error` branch of the sum, no output list or map — in
particular no partial aggregation from earlier executors — is returned. -/
theorem unknown_executor_type_aborts_all_pipelines :
    (∀ (o : Templater) (sc : Serializer) (opts : DeployExecutionOptions),
      (∃ t ∈ opts.blueprint.info.subinstallationExecutions,
        o.impl t.type = none) →
      ∃ e, o.TemplateSubinstallationExecutions sc opts = .error e) ∧
    (∀ (o : Templater) (sc : Serializer) (opts : DeployExecutionOptions),
      (∃ t ∈ opts.blueprint.info.deployExecutions, o.impl t.type = none) →
      ∃ e, o.TemplateDeployExecutions sc opts = .error e) ∧
    (∀ (o : Templater) (bp : Blueprint) (exports : GVal),
      (∃ t ∈ bp.info.exportExecutions, o.impl t.type = none) →
      ∃ e, o.TemplateExportExecutions bp exports = .error e) := by
  refine ⟨?_, ?_, ?_⟩
  · intro o sc opts h
    cases hv : buildValues sc opts with
    | error e =>
      exact ⟨e, by simp [Templater.TemplateSubinstallationExecutions, hv]⟩
    | ok values =>
      obtain ⟨e, he⟩ := subinstallationLoop_error_of_unknown o opts.blueprint
        opts.componentDescriptor opts.componentDescriptors values
        opts.blueprint.info.subinstallationExecutions [] h
      exact ⟨e, by simp [Templater.TemplateSubinstallationExecutions, hv, he]⟩
  · intro o sc opts h
    cases hv : buildValues sc opts with
    | error e =>
      exact ⟨e, by simp [Templater.TemplateDeployExecutions, hv]⟩
    | ok values =>
      obtain ⟨e, he⟩ := deployLoop_error_of_unknown o opts.blueprint
        opts.componentDescriptor opts.componentDescriptors values
        opts.blueprint.info.deployExecutions [] h
      exact ⟨e, by simp [Templater.TemplateDeployExecutions, hv, he]⟩
  · intro o bp exports h
    obtain ⟨e, he⟩ := exportLoop_error_of_unknown o bp exports
      bp.info.exportExecutions [] h
    exact ⟨e, by simp [Templater.TemplateExportExecutions, he]⟩

/-- Witness for C1: the empty templater aborts all three pipelines on the
blueprint declaring the unregistered `GoTemplate` executor. -/
theorem unknown_executor_type_aborts_all_pipelines_witness :
    (∃ e, (New []).TemplateSubinstallationExecutions idSerializer optsGoOnly
      = .error e) ∧
    (∃ e, (New []).TemplateDeployExecutions idSerializer optsGoOnly
      = .error e) ∧
    (∃ e, (New []).TemplateExportExecutions bpGoOnly .null = .error e) :=
  ⟨unknown_executor_type_aborts_all_pipelines.1 (New []) idSerializer
      optsGoOnly ⟨execGo, by simp [optsGoOnly, bpGoOnly], rfl⟩,
   unknown_executor_type_aborts_all_pipelines.2.1 (New []) idSerializer
      optsGoOnly ⟨execGo, by simp [optsGoOnly, bpGoOnly], rfl⟩,
   unknown_executor_type_aborts_all_pipelines.2.2 (New []) bpGoOnly .null
      ⟨execGo, by simp [bpGoOnly], rfl⟩⟩

/-- C2: for a blueprint whose export executor list is `e1` then `e2`, with
both executors' backends succeeding with maps `m1` and `m2`,
`TemplateExportExecutions` returns the right-biased merge of those maps:
on every key the result holds `m2`'s binding when `m2` has one — in
particular `e2`'s value on keys produced by both — and otherwise `m1`'s
binding, so a key produced by exactly one executor keeps that executor's
value. -/
theorem export_pair_merge_right_biased
    (o : Templater) (bp : Blueprint) (exports : GVal)
    (e1 e2 : TemplateExecutor) (i1 i2 : ExecutionTemplater)
    (m1 m2 : List (String × GVal))
    (hbp : bp.info.exportExecutions = [e1, e2])
    (h1 : o.impl e1.type = some i1)
    (h2 : o.impl e2.type = some i2)
    (ho1 : i1.templateExportExecutions e1 bp exports = .ok ⟨m1⟩)
    (ho2 : i2.templateExportExecutions e2 bp exports = .ok ⟨m2⟩) :
    ∃ r, o.TemplateExportExecutions bp exports = .ok r ∧
      ∀ k, lookupMap r k = ((lookupMap m2 k).or (lookupMap m1 k)) := by
  refine ⟨MergeMaps (MergeMaps [] m1) m2, ?_, ?_⟩
  · simp [Templater.TemplateExportExecutions, hbp, exportLoop, h1, ho1, h2, ho2]
  · intro k
    rw [lookupMap_MergeMaps, lookupMap_MergeMaps]
    have : lookupMap [] k = none := rfl
    rw [this]
    cases lookupMap m2 k <;> cases lookupMap m1 k <;> simp

/-- Witness for C2: the scenario of the spec — a first export backend
producing `replicas = 3` followed by a second producing `replicas = 5` and
`name = "x"` yields `replicas = 5` and `name = "x"`. -/
theorem export_pair_merge_right_biased_witness :
    ∃ r, templaterExportPair.TemplateExportExecutions bpExportPair .null
        = .ok r ∧
      ∀ k, lookupMap r k =
        ((lookupMap [("replicas", .num 5), ("name", .str "x")] k).or
          (lookupMap [("replicas", .num 3)] k)) :=
  export_pair_merge_right_biased templaterExportPair bpExportPair .null
    execGo execSpiff
    (constBackend "GoTemplate" none none [("replicas", .num 3)])
    (constBackend "Spiff" none none [("replicas", .num 5), ("name", .str "x")])
    [("replicas", .num 3)] [("replicas", .num 5), ("name", .str "x")]
    rfl rfl rfl rfl rfl

/-- C3 counterexample: the export-pipeline dispatch call hands neither the
component descriptor, nor the descriptor list, nor the per-invocation value
context to its backend, contradicting the claim that it receives the
descriptor/graph and the value context like the other two dispatches. -/
theorem export_dispatch_lacks_descriptor_and_context :
    ¬ (DispatchArg.componentDescriptor ∈ exportDispatchArgs ∧
       DispatchArg.componentDescriptorList ∈ exportDispatchArgs ∧
       DispatchArg.valueContext ∈ exportDispatchArgs) := by
  decide

/-- C3 amended: the sub-installation and deploy-item dispatches each pass
the executor, the owning blueprint, the component descriptor, the
descriptor list and the value context to the backend; the export dispatch
passes only the executor, the owning blueprint and the exports value — it
receives no component descriptor, no descriptor list and no value
context. -/
theorem dispatch_argument_shapes :
    (DispatchArg.executor ∈ subinstallationDispatchArgs ∧
     DispatchArg.blueprint ∈ subinstallationDispatchArgs ∧
     DispatchArg.componentDescriptor ∈ subinstallationDispatchArgs ∧
     DispatchArg.componentDescriptorList ∈ subinstallationDispatchArgs ∧
     DispatchArg.valueContext ∈ subinstallationDispatchArgs) ∧
    (DispatchArg.executor ∈ deployDispatchArgs ∧
     DispatchArg.blueprint ∈ deployDispatchArgs ∧
     DispatchArg.componentDescriptor ∈ deployDispatchArgs ∧
     DispatchArg.componentDescriptorList ∈ deployDispatchArgs ∧
     DispatchArg.valueContext ∈ deployDispatchArgs) ∧
    (DispatchArg.executor ∈ exportDispatchArgs ∧
     DispatchArg.blueprint ∈ exportDispatchArgs ∧
     DispatchArg.exports ∈ exportDispatchArgs ∧
     DispatchArg.componentDescriptor ∉ exportDispatchArgs ∧
     DispatchArg.componentDescriptorList ∉ exportDispatchArgs ∧
     DispatchArg.valueContext ∉ exportDispatchArgs) := by
  decide

/-- When every executor of the list resolves to a backend that succeeds with
output `f t`, the sub-installation loop returns the accumulator followed by
the per-executor output lists in order, a nil output contributing
nothing. -/
theorem subinstallationLoop_ok_of_all (o : Templater) (bp : Blueprint)
    (cd cdl : Option GVal) (values : List (String × GVal))
    (f : TemplateExecutor → SubinstallationExecutorOutput) :
    ∀ (l : List TemplateExecutor) (acc : List InstallationTemplate),
      (∀ t ∈ l, ∃ impl, o.impl t.type = some impl ∧
        impl.templateSubinstallationExecutions t bp cd cdl values
          = .ok (f t)) →
      subinstallationLoop o bp cd cdl values l acc =
        .ok (acc ++
          (l.map (fun t => ((f t).subinstallations).getD [])).flatten) := by
  intro l
  induction l with
  | nil => intro acc _; simp [subinstallationLoop]
  | cons hd tl ih =>
    intro acc h
    obtain ⟨impl, himp, hout⟩ := h hd (List.mem_cons_self _ _)
    have htl := fun t ht => h t (List.mem_cons_of_mem _ ht)
    cases hsubs : (f hd).subinstallations with
    | none =>
      simp [subinstallationLoop, himp, hout, hsubs, ih acc htl]
    | some subs =>
      simp [subinstallationLoop, himp, hout, hsubs, ih (acc ++ subs) htl]

/-- When every executor of the list resolves to a backend that succeeds with
output `g t`, the deploy-item loop returns the accumulator followed by the
per-executor output lists in order, a nil output contributing nothing. -/
theorem deployLoop_ok_of_all (o : Templater) (bp : Blueprint)
    (cd cdl : Option GVal) (values : List (String × GVal))
    (g : TemplateExecutor → DeployExecutorOutput) :
    ∀ (l : List TemplateExecutor) (acc : List DeployItemTemplate),
      (∀ t ∈ l, ∃ impl, o.impl t.type = some impl ∧
        impl.templateDeployExecutions t bp cd cdl values = .ok (g t)) →
      deployLoop o bp cd cdl values l acc =
        .ok (acc ++ (l.map (fun t => ((g t).deployItems).getD [])).flatten) := by
  intro l
  induction l with
  | nil => intro acc _; simp [deployLoop]
  | cons hd tl ih =>
    intro acc h
    obtain ⟨impl, himp, hout⟩ := h hd (List.mem_cons_self _ _)
    have htl := fun t ht => h t (List.mem_cons_of_mem _ ht)
    cases hitems : (g hd).deployItems with
    | none =>
      simp [deployLoop, himp, hout, hitems, ih acc htl]
    | some items =>
      simp [deployLoop, himp, hout, hitems, ih (acc ++ items) htl]

/-- C6: in the sub-installation and deploy-item pipelines, when every
executor's backend succeeds, a nil output contributes no items and causes
no error, and the aggregation is the concatenation of the per-executor
output lists in executor declaration order (within each executor in its
output order); the deploy-item pipeline returns that concatenation when it
passes validation. -/
theorem nil_skip_and_ordered_concatenation :
    (∀ (o : Templater) (sc : Serializer) (opts : DeployExecutionOptions)
       (values : List (String × GVal))
       (f : TemplateExecutor → SubinstallationExecutorOutput),
      buildValues sc opts = .ok values →
      (∀ t ∈ opts.blueprint.info.subinstallationExecutions, ∃ impl,
        o.impl t.type = some impl ∧
        impl.templateSubinstallationExecutions t opts.blueprint
          opts.componentDescriptor opts.componentDescriptors values
          = .ok (f t)) →
      o.TemplateSubinstallationExecutions sc opts =
        .ok ((opts.blueprint.info.subinstallationExecutions.map
          (fun t => ((f t).subinstallations).getD [])).flatten)) ∧
    (∀ (o : Templater) (sc : Serializer) (opts : DeployExecutionOptions)
       (values : List (String × GVal))
       (g : TemplateExecutor → DeployExecutorOutput),
      buildValues sc opts = .ok values →
      (∀ t ∈ opts.blueprint.info.deployExecutions, ∃ impl,
        o.impl t.type = some impl ∧
        impl.templateDeployExecutions t opts.blueprint
          opts.componentDescriptor opts.componentDescriptors values
          = .ok (g t)) →
      deployLoop o opts.blueprint opts.componentDescriptor
        opts.componentDescriptors values opts.blueprint.info.deployExecutions
        [] =
        .ok ((opts.blueprint.info.deployExecutions.map
          (fun t => ((g t).deployItems).getD [])).flatten) ∧
      (validateDeployItemList "deployExecutions"
          ((opts.blueprint.info.deployExecutions.map
            (fun t => ((g t).deployItems).getD [])).flatten) = none →
        o.TemplateDeployExecutions sc opts =
          .ok ((opts.blueprint.info.deployExecutions.map
            (fun t => ((g t).deployItems).getD [])).flatten))) := by
  constructor
  · intro o sc opts values f hv h
    have := subinstallationLoop_ok_of_all o opts.blueprint
      opts.componentDescriptor opts.componentDescriptors values f
      opts.blueprint.info.subinstallationExecutions [] h
    simp [Templater.TemplateSubinstallationExecutions, hv, this]
  · intro o sc opts values g hv h
    have hloop := deployLoop_ok_of_all o opts.blueprint
      opts.componentDescriptor opts.componentDescriptors values g
      opts.blueprint.info.deployExecutions [] h
    refine ⟨by simpa using hloop, fun hval => ?_⟩
    simp at hloop
    simp [Templater.TemplateDeployExecutions, hv, hloop, hval]

/-- Witness for C6: a backend returning a nil sub-installation list is
skipped, and two deploy backends returning one and two items yield the
three items in executor-then-item order. -/
theorem nil_skip_and_ordered_concatenation_witness :
    templaterAggPair.TemplateSubinstallationExecutions idSerializer
      optsAggPair = .ok [instTmplA] ∧
    templaterAggPair.TemplateDeployExecutions idSerializer optsAggPair
      = .ok [itemA, itemB, itemC] := by
  constructor
  · have h := nil_skip_and_ordered_concatenation.1 templaterAggPair
      idSerializer optsAggPair
      [("imports", .null), ("cd", .null), ("components", .null)]
      (fun t => if t.type == "GoTemplate" then ⟨none⟩
        else ⟨some [instTmplA]⟩)
      rfl ?_
    · exact h
    · intro t ht
      have ht' : t ∈ [execGo, execSpiff] := ht
      rcases List.mem_cons.mp ht' with rfl | ht'
      · exact ⟨constBackend "GoTemplate" none (some [itemA]) [], rfl, rfl⟩
      rcases List.mem_cons.mp ht' with rfl | ht'
      · exact ⟨constBackend "Spiff" (some [instTmplA]) (some [itemB, itemC])
          [], rfl, rfl⟩
      · exact absurd ht' (List.not_mem_nil t)
  · have h := (nil_skip_and_ordered_concatenation.2 templaterAggPair
      idSerializer optsAggPair
      [("imports", .null), ("cd", .null), ("components", .null)]
      (fun t => if t.type == "GoTemplate" then ⟨some [itemA]⟩
        else ⟨some [itemB, itemC]⟩)
      rfl ?_).2 rfl
    · exact h
    · intro t ht
      have ht' : t ∈ [execGo, execSpiff] := ht
      rcases List.mem_cons.mp ht' with rfl | ht'
      · exact ⟨constBackend "GoTemplate" none (some [itemA]) [], rfl, rfl⟩
      rcases List.mem_cons.mp ht' with rfl | ht'
      · exact ⟨constBackend "Spiff" (some [instTmplA]) (some [itemB, itemC])
          [], rfl, rfl⟩
      · exact absurd ht' (List.not_mem_nil t)

/-- C8: when all deploy executors succeed, the fully aggregated deploy-item
list is handed to the validator; when the validator finds a non-empty list
of violations, the whole operation returns the validation error carrying
every violation found across the list — not only the first — and no item
list. -/
theorem deploy_validation_failure_aggregates_all_violations
    (o : Templater) (sc : Serializer) (opts : DeployExecutionOptions)
    (values : List (String × GVal))
    (g : TemplateExecutor → DeployExecutorOutput) (violations : List String)
    (hv : buildValues sc opts = .ok values)
    (hexec : ∀ t ∈ opts.blueprint.info.deployExecutions, ∃ impl,
      o.impl t.type = some impl ∧
      impl.templateDeployExecutions t opts.blueprint opts.componentDescriptor
        opts.componentDescriptors values = .ok (g t))
    (hval : ValidateDeployItemTemplateList "deployExecutions"
      ((opts.blueprint.info.deployExecutions.map
        (fun t => ((g t).deployItems).getD [])).flatten) = violations)
    (hne : violations ≠ []) :
    o.TemplateDeployExecutions sc opts = .error (.validation violations) := by
  have hloop := deployLoop_ok_of_all o opts.blueprint
    opts.componentDescriptor opts.componentDescriptors values g
    opts.blueprint.info.deployExecutions [] hexec
  simp at hloop
  have hvd : validateDeployItemList "deployExecutions"
      ((opts.blueprint.info.deployExecutions.map
        (fun t => ((g t).deployItems).getD [])).flatten)
      = some (.validation violations) := by
    unfold validateDeployItemList
    rw [hval]
    cases violations with
    | nil => exact absurd rfl hne
    | cons v vs => rfl
  simp [Templater.TemplateDeployExecutions, hv, hloop, hvd]

/-- Witness for C8: an unnamed item from the first executor and an untyped
item from the second produce one validation error carrying both
violations. -/
theorem deploy_validation_failure_aggregates_all_violations_witness :
    templaterInvalidItems.TemplateDeployExecutions idSerializer optsAggPair
      = .error (.validation
        ["deployExecutions[0].name: Required value",
         "deployExecutions[1].type: Required value"]) := by
  have h := deploy_validation_failure_aggregates_all_violations
    templaterInvalidItems idSerializer optsAggPair
    [("imports", .null), ("cd", .null), ("components", .null)]
    (fun t => if t.type == "GoTemplate" then ⟨some [⟨"", "helm", none⟩]⟩
      else ⟨some [⟨"di-b", "", none⟩]⟩)
    ["deployExecutions[0].name: Required value",
     "deployExecutions[1].type: Required value"]
    rfl ?_ rfl (by decide)
  · exact h
  · intro t ht
    have ht' : t ∈ [execGo, execSpiff] := ht
    rcases List.mem_cons.mp ht' with rfl | ht'
    · exact ⟨constBackend "GoTemplate" none (some [⟨"", "helm", none⟩]) [],
        rfl, rfl⟩
    rcases List.mem_cons.mp ht' with rfl | ht'
    · exact ⟨constBackend "Spiff" none (some [⟨"di-b", "", none⟩]) [],
        rfl, rfl⟩
    · exact absurd ht' (List.not_mem_nil t)

/-- C7: every successfully built value context carries the keys `imports`
(bound to the supplied imports), `cd` and `components`; it carries
`blueprint` exactly when an owning installation is supplied, and
`componentDescriptorDef` exactly when an owning installation with a
component-descriptor reference is supplied; a nil component descriptor or
descriptor list yields a nil (`null`) entry for `cd` or `components`
rather than an error. -/
theorem value_context_keys (sc : Serializer) (opts : DeployExecutionOptions)
    (values : List (String × GVal))
    (h : buildValues sc opts = .ok values) :
    lookupMap values "imports" = some opts.imports ∧
    (lookupMap values "cd").isSome ∧
    (lookupMap values "components").isSome ∧
    ((lookupMap values "blueprint").isSome ↔ opts.installation.isSome) ∧
    ((lookupMap values "componentDescriptorDef").isSome ↔
      ∃ inst, opts.installation = some inst ∧
        inst.spec.componentDescriptor.isSome) ∧
    (opts.componentDescriptor = none → lookupMap values "cd" = some .null) ∧
    (opts.componentDescriptors = none →
      lookupMap values "components" = some .null) := by
  unfold buildValues at h
  cases hcd : serializeComponentDescriptor sc opts.componentDescriptor with
  | error e => rw [hcd] at h; simp at h
  | ok component =>
  rw [hcd] at h
  cases hcdl : serializeComponentDescriptorList sc opts.componentDescriptors with
  | error e => rw [hcdl] at h; simp at h
  | ok components =>
  rw [hcdl] at h
  have hcdnull : opts.componentDescriptor = none → component = .null := by
    intro hnone
    rw [hnone] at hcd
    simp [serializeComponentDescriptor] at hcd
    exact hcd.symm
  have hcdlnull : opts.componentDescriptors = none → components = .null := by
    intro hnone
    rw [hnone] at hcdl
    simp [serializeComponentDescriptorList] at hcdl
    exact hcdl.symm
  cases hinst : opts.installation with
  | none =>
    rw [hinst] at h
    simp at h
    subst h
    refine ⟨by simp [lookupMap], by simp [lookupMap], by simp [lookupMap],
      by simp [lookupMap, hinst], by simp [lookupMap, hinst], ?_, ?_⟩
    · intro hnone
      rw [hcdnull hnone]
      simp [lookupMap]
    · intro hnone
      rw [hcdlnull hnone]
      simp [lookupMap]
  | some inst =>
    rw [hinst] at h
    simp only [] at h
    cases hbd : sc.encodeToGenericTree inst.spec.blueprint with
    | error e => rw [hbd] at h; simp at h
    | ok blueprintDef =>
    rw [hbd] at h
    simp only [] at h
    cases href : inst.spec.componentDescriptor with
    | none =>
      rw [href] at h
      simp at h
      subst h
      refine ⟨by simp [lookupMap], by simp [lookupMap], by simp [lookupMap],
        by simp [lookupMap, hinst], by simp [lookupMap, hinst, href], ?_, ?_⟩
      · intro hnone
        rw [hcdnull hnone]
        simp [lookupMap]
      · intro hnone
        rw [hcdlnull hnone]
        simp [lookupMap]
    | some cdRef =>
      rw [href] at h
      simp only [] at h
      cases henc : sc.encodeToGenericTree cdRef with
      | error e => rw [henc] at h; simp at h
      | ok cdDef =>
      rw [henc] at h
      simp at h
      subst h
      refine ⟨by simp [lookupMap], by simp [lookupMap], by simp [lookupMap],
        by simp [lookupMap, hinst], by simp [lookupMap, hinst, href], ?_, ?_⟩
      · intro hnone
        rw [hcdnull hnone]
        simp [lookupMap]
      · intro hnone
        rw [hcdlnull hnone]
        simp [lookupMap]

/-- Witness for C7: a context built with an installation carrying a
component-descriptor reference holds all five keys; the nil descriptor list
yields a null `components` entry. -/
theorem value_context_keys_witness :
    lookupMap [("imports", GVal.obj [("k", .num 1)]),
        ("cd", .obj [("component", .str "c")]), ("components", .null),
        ("blueprint", .str "bp-ref"),
        ("componentDescriptorDef", .str "cd-ref")] "imports"
      = some optsWithInstallation.imports ∧
    ((lookupMap [("imports", GVal.obj [("k", .num 1)]),
        ("cd", .obj [("component", .str "c")]), ("components", .null),
        ("blueprint", .str "bp-ref"),
        ("componentDescriptorDef", .str "cd-ref")] "blueprint").isSome ↔
      optsWithInstallation.installation.isSome) ∧
    (optsWithInstallation.componentDescriptors = none →
      lookupMap [("imports", GVal.obj [("k", .num 1)]),
        ("cd", .obj [("component", .str "c")]), ("components", .null),
        ("blueprint", .str "bp-ref"),
        ("componentDescriptorDef", .str "cd-ref")] "components"
        = some .null) := by
  have h := value_context_keys idSerializer optsWithInstallation
    [("imports", .obj [("k", .num 1)]), ("cd", .obj [("component", .str "c")]),
     ("components", .null), ("blueprint", .str "bp-ref"),
     ("componentDescriptorDef", .str "cd-ref")] rfl
  exact ⟨h.1, h.2.2.2.1, h.2.2.2.2.2.2⟩

/-- A list none of whose elements satisfies the predicate has `any` false. -/
theorem any_eq_false_of_forall {α : Type} (l : List α) (p : α → Bool)
    (h : ∀ x ∈ l, p x = false) : l.any p = false := by
  induction l with
  | nil => rfl
  | cons hd tl ih =>
    simp [h hd (List.mem_cons_self _ _),
      ih fun x hx => h x (List.mem_cons_of_mem _ hx)]

/-- C5: `UpdateStatus` sets the execution's phase to the supplied value and
merges the supplied conditions into the existing set by condition-type key;
one merge step replaces a condition whose type already exists in its same
relative position (untouched conditions keeping their relative order) and
appends a condition of a new type; a supplied list is merged left to
right. -/
theorem update_status_sets_phase_and_merges_conditions
    (persist : Execution → Except LsError Unit) (o : Operation)
    (phase : String) (updatedConditions : List Condition) :
    ((Operation.UpdateStatus persist o phase
        updatedConditions).1.exec.status.phase = phase) ∧
    ((Operation.UpdateStatus persist o phase
        updatedConditions).1.exec.status.conditions
      = MergeConditions o.exec.status.conditions updatedConditions) ∧
    (∀ (existing : List Condition) (c : Condition),
      ((∃ e ∈ existing, e.type = c.type) →
        MergeConditions existing [c]
          = existing.map (fun e => if e.type = c.type then c else e)) ∧
      ((¬ ∃ e ∈ existing, e.type = c.type) →
        MergeConditions existing [c] = existing ++ [c])) ∧
    (∀ (existing : List Condition) (c : Condition) (cs : List Condition),
      MergeConditions existing (c :: cs)
        = MergeConditions (MergeConditions existing [c]) cs) := by
  refine ⟨rfl, rfl, ?_, fun existing c cs => rfl⟩
  intro existing c
  constructor
  · intro hex
    have hany : existing.any (fun e => e.type = c.type) = true := by
      rw [List.any_eq_true]
      obtain ⟨e, he, ht⟩ := hex
      exact ⟨e, he, by simp [ht]⟩
    unfold MergeConditions
    simp only [List.foldl_cons, List.foldl_nil]
    rw [hany]
    simp
  · intro hnex
    have hany : existing.any (fun e => e.type = c.type) = false := by
      refine any_eq_false_of_forall _ _ fun e he => ?_
      by_contra hc
      simp at hc
      exact hnex ⟨e, he, hc⟩
    unfold MergeConditions
    simp only [List.foldl_cons, List.foldl_nil]
    rw [hany]
    simp

/-- Witness for C5: updating with a `Reconcile` condition replaces the
existing `Reconcile` condition in first position and leaves `Validate`
untouched; against a set without the type it is appended; the phase is
overwritten. -/
theorem update_status_sets_phase_and_merges_conditions_witness :
    ((Operation.UpdateStatus (fun _ => .ok ()) opSample "Progressing"
        [condA']).1.exec.status.phase = "Progressing") ∧
    MergeConditions [condA, condB] [condA'] = [condA', condB] ∧
    MergeConditions [condB] [condA'] = [condB, condA'] := by
  have h := update_status_sets_phase_and_merges_conditions
    (fun _ => .ok ()) opSample "Progressing" [condA']
  refine ⟨h.1, ?_, ?_⟩
  · rw [(h.2.2.1 [condA, condB] condA').1 ⟨condA, by decide, by decide⟩]
    decide
  · rw [(h.2.2.1 [condB] condA').2 (by decide)]
    rfl

/-- C9: the in-memory execution is mutated before persistence is attempted:
when the status write fails and the error is surfaced, the returned
operation still carries the supplied phase and the merged conditions — the
mutation is not rolled back on a persistence error. -/
theorem update_status_mutation_survives_persist_error
    (persist : Execution → Except LsError Unit) (o : Operation)
    (phase : String) (updatedConditions : List Condition) (e : LsError)
    (_herr : (Operation.UpdateStatus persist o phase updatedConditions).2
      = .error e) :
    ((Operation.UpdateStatus persist o phase
        updatedConditions).1.exec.status.phase = phase) ∧
    ((Operation.UpdateStatus persist o phase
        updatedConditions).1.exec.status.conditions
      = MergeConditions o.exec.status.conditions updatedConditions) :=
  ⟨rfl, rfl⟩

/-- Witness for C9: a failing persistence function surfaces its error while
the returned operation carries the new phase and the appended condition. -/
theorem update_status_mutation_survives_persist_error_witness :
    ((Operation.UpdateStatus persistFail opSample "Failed"
        [condA]).1.exec.status.phase = "Failed") ∧
    ((Operation.UpdateStatus persistFail opSample "Failed"
        [condA]).1.exec.status.conditions
      = MergeConditions opSample.exec.status.conditions [condA]) :=
  update_status_mutation_survives_persist_error persistFail opSample
    "Failed" [condA] (.backend "status write failed") rfl

/-- Mapping a replace-on-match function over a list without any match is the
identity. -/
theorem map_replace_of_no_match (obj : DataObject) (l : List DataObject)
    (p : DataObject → Bool) (h : ∀ d ∈ l, p d = false) :
    l.map (fun d => if p d then obj else d) = l := by
  induction l with
  | nil => rfl
  | cons hd tl ih =>
    simp [h hd (List.mem_cons_self _ _),
      ih fun d hd' => h d (List.mem_cons_of_mem _ hd')]

/-- One successful publish on a store not yet holding the derived key:
the object is appended and the operation records the export reference. -/
theorem createOrUpdateExportReference_absent
    (c : ExecCollaborators) (o : Operation) (store : Store) (values : GVal)
    (raw obj : DataObject)
    (hbuild : c.build o.exec.nspace (DataObjectSourceFromExecution o.exec)
      (DataObjectSourceFromExecution o.exec) values = .ok raw)
    (hmut1 : c.applyMutate o.exec raw = .ok obj)
    (hpersist : ∀ ex, c.persistStatus ex = .ok ())
    (habsent : store.objects.any
      (fun d => d.nspace == obj.nspace && d.name == obj.name) = false) :
    Operation.CreateOrUpdateExportReference c o store values =
      (⟨{ o.exec with status := { o.exec.status with
          exportReference := some ⟨obj.name, obj.nspace⟩ } },
         o.forceReconcile⟩,
       ⟨store.objects ++ [obj]⟩, .ok ()) := by
  unfold Operation.CreateOrUpdateExportReference
  rw [hbuild]
  simp only []
  unfold createOrUpdateDataObject
  rw [hmut1]
  simp [habsent, Operation.UpdateStatus, MergeConditions, hpersist]

/-- One successful publish on a store already holding the derived key: the
matching objects are overwritten in place and the operation records the
export reference. -/
theorem createOrUpdateExportReference_present
    (c : ExecCollaborators) (o : Operation) (store : Store) (values : GVal)
    (raw obj : DataObject)
    (hbuild : c.build o.exec.nspace (DataObjectSourceFromExecution o.exec)
      (DataObjectSourceFromExecution o.exec) values = .ok raw)
    (hmut1 : c.applyMutate o.exec raw = .ok obj)
    (hpersist : ∀ ex, c.persistStatus ex = .ok ())
    (hpresent : store.objects.any
      (fun d => d.nspace == obj.nspace && d.name == obj.name) = true) :
    Operation.CreateOrUpdateExportReference c o store values =
      (⟨{ o.exec with status := { o.exec.status with
          exportReference := some ⟨obj.name, obj.nspace⟩ } },
         o.forceReconcile⟩,
       ⟨store.objects.map (fun d =>
          if d.nspace == obj.nspace && d.name == obj.name then obj else d)⟩,
       .ok ()) := by
  unfold Operation.CreateOrUpdateExportReference
  rw [hbuild]
  simp only []
  unfold createOrUpdateDataObject
  rw [hmut1]
  simp [hpresent, Operation.UpdateStatus, MergeConditions, hpersist]

/-- C4: publishing the export reference twice with the same values, with the
collaborators succeeding and the store not yet holding the derived key,
upserts to the same derived name and namespace both times: after both calls
the store holds exactly one object with that key, the second call leaves
the operation and the store exactly as the first left them, and the
execution's recorded export reference is the same after both calls. -/
theorem publish_export_idempotent
    (c : ExecCollaborators) (o : Operation) (s0 : Store) (values : GVal)
    (raw obj : DataObject)
    (hbuild : c.build o.exec.nspace (DataObjectSourceFromExecution o.exec)
      (DataObjectSourceFromExecution o.exec) values = .ok raw)
    (hmut : ∀ ex : Execution, ex.name = o.exec.name →
      ex.nspace = o.exec.nspace → c.applyMutate ex raw = .ok obj)
    (hpersist : ∀ ex, c.persistStatus ex = .ok ())
    (hs0 : ∀ d ∈ s0.objects,
      (d.nspace == obj.nspace && d.name == obj.name) = false) :
    ∃ (o1 : Operation) (s1 : Store),
      Operation.CreateOrUpdateExportReference c o s0 values
        = (o1, s1, .ok ()) ∧
      Operation.CreateOrUpdateExportReference c o1 s1 values
        = (o1, s1, .ok ()) ∧
      (s1.objects.filter
        (fun d => d.nspace == obj.nspace && d.name == obj.name)).length = 1 ∧
      o1.exec.status.exportReference = some ⟨obj.name, obj.nspace⟩ := by
  have hpredobj : (obj.nspace == obj.nspace && obj.name == obj.name)
      = true := by simp
  have hany0 : s0.objects.any
      (fun d => d.nspace == obj.nspace && d.name == obj.name) = false :=
    any_eq_false_of_forall _ _ hs0
  have h1 := createOrUpdateExportReference_absent c o s0 values raw obj
    hbuild (hmut o.exec rfl rfl) hpersist hany0
  refine ⟨⟨{ o.exec with status := { o.exec.status with
      exportReference := some ⟨obj.name, obj.nspace⟩ } }, o.forceReconcile⟩,
    ⟨s0.objects ++ [obj]⟩, h1, ?_, ?_, rfl⟩
  · have hany1 : ((s0.objects ++ [obj]).any
        (fun d => d.nspace == obj.nspace && d.name == obj.name)) = true := by
      rw [List.any_append]
      simp [hpredobj]
    have h2 := createOrUpdateExportReference_present c
      ⟨{ o.exec with status := { o.exec.status with
          exportReference := some ⟨obj.name, obj.nspace⟩ } },
        o.forceReconcile⟩
      ⟨s0.objects ++ [obj]⟩ values raw obj hbuild
      (hmut _ rfl rfl) hpersist hany1
    rw [h2]
    have hmap : ((s0.objects ++ [obj]).map (fun d =>
        if d.nspace == obj.nspace && d.name == obj.name then obj else d))
        = s0.objects ++ [obj] := by
      rw [List.map_append, map_replace_of_no_match obj s0.objects _ hs0]
      simp [hpredobj]
    simp only [hmap]
  · rw [List.filter_append, List.filter_eq_nil_iff.mpr
      (fun d hd => by simp [hs0 d hd])]
    simp [hpredobj]

/-- Witness for C4: publishing the value `7` twice for the sample execution
over the empty store yields one stored object and the stable reference. -/
theorem publish_export_idempotent_witness :
    ∃ (o1 : Operation) (s1 : Store),
      Operation.CreateOrUpdateExportReference collabOk opSample emptyStore
        (.num 7) = (o1, s1, .ok ()) ∧
      Operation.CreateOrUpdateExportReference collabOk o1 s1 (.num 7)
        = (o1, s1, .ok ()) ∧
      (s1.objects.filter (fun d =>
        d.nspace == "ns-1" && d.name == "Execution.ns-1/exec-a-do")).length
        = 1 ∧
      o1.exec.status.exportReference
        = some ⟨"Execution.ns-1/exec-a-do", "ns-1"⟩ :=
  publish_export_idempotent collabOk opSample emptyStore (.num 7)
    ⟨"Execution.ns-1/exec-a-do", "ns-1", "Execution.ns-1/exec-a",
      "Execution.ns-1/exec-a", .num 7, none⟩
    ⟨"Execution.ns-1/exec-a-do", "ns-1", "Execution.ns-1/exec-a",
      "Execution.ns-1/exec-a", .num 7, some "ns-1/exec-a"⟩
    rfl
    (fun ex h1 h2 => by
      simp [collabOk, h1, h2, opSample, execSample])
    (fun _ => rfl)
    (fun d hd => absurd hd (List.not_mem_nil d))

/-- C10: when building the export data object fails, or when the mutate
closure of the create-or-update fails, the whole operation returns the
error with the operation — in particular the execution's status export
reference — and the store left unchanged. -/
theorem export_reference_unchanged_on_failure
    (c : ExecCollaborators) (o : Operation) (store : Store) (values : GVal) :
    (∀ e, c.build o.exec.nspace (DataObjectSourceFromExecution o.exec)
        (DataObjectSourceFromExecution o.exec) values = .error e →
      Operation.CreateOrUpdateExportReference c o store values
        = (o, store, .error e)) ∧
    (∀ raw e,
      c.build o.exec.nspace (DataObjectSourceFromExecution o.exec)
        (DataObjectSourceFromExecution o.exec) values = .ok raw →
      c.applyMutate o.exec raw = .error e →
      Operation.CreateOrUpdateExportReference c o store values
        = (o, store, .error e)) := by
  constructor
  · intro e he
    unfold Operation.CreateOrUpdateExportReference
    rw [he]
  · intro raw e hb hm
    unfold Operation.CreateOrUpdateExportReference
    rw [hb]
    simp only []
    unfold createOrUpdateDataObject
    rw [hm]

/-- Witness for C10: a failing build and a failing mutate closure each
surface their error and leave the operation and store untouched. -/
theorem export_reference_unchanged_on_failure_witness :
    (Operation.CreateOrUpdateExportReference collabBuildFail opSample
      emptyStore .null
      = (opSample, emptyStore, .error (.serialization "marshal failed"))) ∧
    (Operation.CreateOrUpdateExportReference collabMutateFail opSample
      emptyStore .null
      = (opSample, emptyStore,
         .error (.backend "owner reference failed"))) :=
  ⟨(export_reference_unchanged_on_failure collabBuildFail opSample
      emptyStore .null).1 (.serialization "marshal failed") rfl,
   (export_reference_unchanged_on_failure collabMutateFail opSample
      emptyStore .null).2
     ⟨"Execution.ns-1/exec-a-do", "ns-1", "Execution.ns-1/exec-a",
       "Execution.ns-1/exec-a", .null, none⟩
     (.backend "owner reference failed") rfl rfl⟩

end Landscaper
